import Mathlib

/-!
Shallow embedding of the `http_client` crate (src/src/lib.rs, with the
historical `src/src/body.rs` module also embedded where claims refer to it),
together with theorems checking the natural-language specification against it.

Bytes on the wire are modelled as `List Nat` (each element a byte value).
External collaborators (the hyper transport, the serde_json codec) are
modelled as explicit parameters: a transport exchange is its result value,
a serde codec for a payload type `V` is a pair of functions.  Rust `String`
is modelled as a list of Unicode scalar values (`List Char`), with its UTF-8
byte representation computed by an explicit UTF-8 codec defined below.
-/

namespace HttpClient

/-- A byte buffer (`Vec<u8>`); each entry is one byte. -/
abbrev Bytes := List Nat

/-- `http::Uri`, already parsed and valid; only its identity matters here. -/
abbrev Uri := String

/-- `http::Method` as used by the client. -/
inductive Method where
  | GET
  | POST
  | PUT
  | DELETE
  deriving DecidableEq, Repr

/-- The error enum. `lib.rs` declares `CanceledSend`, `InvalidHttpRequest`
and `InvalidHttpResponse`; the historical `body.rs` module additionally
produces `InvalidDataFormat`, which the spec's taxonomy also lists, so the
model carries all four variants. -/
inductive HError where
  | CanceledSend
  | InvalidHttpRequest (msg : String)
  | InvalidHttpResponse (msg : String)
  | InvalidDataFormat (msg : String)
  deriving DecidableEq, Repr

/-- `Status<T>` from lib.rs: the typed outcome of one request. -/
inductive Status (T : Type) where
  | Ok (t : T)
  | Created
  | Accepted
  | NotFound
  | InternalServerError
  | NotImplemented
  | Unregistered (code : Nat)
  deriving DecidableEq, Repr

/-- `impl From<StatusCode> for Status<T>` (lib.rs lines 239-250): the match
on the status code.  `StatusCode::CREATED` is 201, `ACCEPTED` 202,
`NOT_FOUND` 404, `INTERNAL_SERVER_ERROR` 500, `NOT_IMPLEMENTED` 501; every
other code falls through to `Unregistered(s.as_u16())`. -/
def statusFromCode (T : Type) (s : Nat) : Status T :=
  if s = 201 then Status.Created
  else if s = 202 then Status.Accepted
  else if s = 404 then Status.NotFound
  else if s = 500 then Status.InternalServerError
  else if s = 501 then Status.NotImplemented
  else Status.Unregistered s

/-- The asynchronous body stream of a response: the chunks it yields in
arrival order, followed either by end-of-stream (`streamError = none`) or by
a read failure carrying a diagnostic (`streamError = some e`). -/
structure BodyStream where
  chunks : List Bytes
  streamError : Option String
  deriving DecidableEq, Repr

/-- A resolved `Response<hyper::Body>`: immediate status code plus the body
stream. -/
structure HttpResponse where
  status : Nat
  body : BodyStream
  deriving DecidableEq, Repr

/-- The transport collaborator's result for one exchange: either a transport
error (connection refused, reset, ...) with its diagnostic text, or a
response. -/
abbrev TransportResult := Except String HttpResponse

/-- The buffering step of `handle_response` (lib.rs lines 212-219):
`into_body().map_err(InvalidHttpResponse).fold(Vec::new(), extend)`.
A stream read failure aborts the fold and surfaces as `InvalidHttpResponse`;
otherwise each chunk is appended in arrival order into one growing buffer. -/
def bufferBody (s : BodyStream) : Except HError Bytes :=
  match s.streamError with
  | some e => Except.error (HError.InvalidHttpResponse e)
  | none => Except.ok (s.chunks.foldl (fun acc chunk => acc ++ chunk) [])

/-- `HttpClient::handle_response` (lib.rs lines 197-236), as a function of
the decoder for the requested type `R` (the `serde_json::from_slice`
capability, returning the error's description on failure) and the
transport's result.  On transport error: `InvalidHttpResponse`.  On status
200: buffer the body, decode it, wrap in `Status::Ok`, mapping a decode
failure to `InvalidHttpResponse(description)`.  On any other status:
`Status::from(status)` without touching the body or the decoder. -/
def handle_response {R : Type} (decode : Bytes → Except String R)
    (result : TransportResult) : Except HError (Status R) :=
  match result with
  | Except.error e => Except.error (HError.InvalidHttpResponse e)
  | Except.ok r =>
    if r.status = 200 then
      match bufferBody r.body with
      | Except.error he => Except.error he
      | Except.ok buf =>
        match decode buf with
        | Except.ok json => Except.ok (Status.Ok json)
        | Except.error e => Except.error (HError.InvalidHttpResponse e)
    else
      Except.ok (statusFromCode R r.status)

/-- Accumulating the chunks with the source's fold equals flattening them in
arrival order. -/
theorem foldl_append_eq_flatten (acc : Bytes) (chunks : List Bytes) :
    chunks.foldl (fun a c => a ++ c) acc = acc ++ chunks.flatten := by
  induction chunks generalizing acc with
  | nil => simp
  | cons c cs ih => simp [List.foldl_cons, ih, List.append_assoc]

/-- A built `Request<hyper::Body>`: method, target, the one header the
builder sets, and the body bytes. -/
structure HttpRequest where
  method : Method
  uri : Uri
  contentType : String
  body : Bytes
  deriving DecidableEq, Repr

/-- The chain `Request::builder().uri(u).method(m).header(CONTENT_TYPE, ct).body(b)`
from lib.rs.  `u` is an already-parsed `Uri` (so `HttpTryFrom<Uri>` is the
identity and records no error), `m` a valid `Method`, and the header pair is
the constant valid `(CONTENT_TYPE, "application/json")`; the http crate's
builder therefore accumulates no error and `body()` returns `Ok`. -/
def requestBuilderBuild (m : Method) (u : Uri) (ct : String) (b : Bytes) :
    Except String HttpRequest :=
  Except.ok { method := m, uri := u, contentType := ct, body := b }

/-- `HttpClient::build_request` (lib.rs lines 155-174), as a function of the
payload type's `serde_json::to_vec` capability `ser` (returning the error's
description on failure).  The `?` on `serde_json::to_vec(value)` routes a
serialization failure through `impl From<serde_json::Error> for HError`
(lib.rs lines 67-71), which yields `InvalidHttpResponse`; a rejection by the
request builder yields `InvalidHttpRequest`.  The Content-Type header is
the hardcoded literal `"application/json"`. -/
def build_request {P : Type} (ser : P → Except String Bytes)
    (method : Method) (uri : Uri) (value : P) : Except HError HttpRequest :=
  match ser value with
  | Except.error e => Except.error (HError.InvalidHttpResponse e)
  | Except.ok body =>
    match requestBuilderBuild method uri "application/json" body with
    | Except.ok req => Except.ok req
    | Except.error e => Except.error (HError.InvalidHttpRequest e)

/-- `HttpClient::build_request_raw` (lib.rs lines 176-195): the body is the
given raw bytes, the Content-Type header again `"application/json"`. -/
def build_request_raw (method : Method) (uri : Uri) (value : Bytes) :
    Except HError HttpRequest :=
  match requestBuilderBuild method uri "application/json" value with
  | Except.ok req => Except.ok req
  | Except.error e => Except.error (HError.InvalidHttpRequest e)

/-- `serde_json::to_vec(&())`: serde serializes the unit value `()` as the
JSON literal `null`, so the result is always `Ok(b"null")`
(bytes 110 117 108 108). -/
def serdeToVecUnit : Unit → Except String Bytes :=
  fun _ => Except.ok [110, 117, 108, 108]

/-- `HttpClient::get` (lib.rs lines 117-125): builds a GET request for the
static `EMPTY` unit value, then `.ok().expect(..)` — a build failure would
panic rather than return, modelled by `none`; otherwise the returned future
is `handle_response`, a function of the transport's result. -/
def get {R : Type} (decode : Bytes → Except String R) (uri : Uri)
    (tr : TransportResult) : Option (Except HError (Status R)) :=
  match build_request serdeToVecUnit Method.GET uri () with
  | Except.error _ => none
  | Except.ok _req => some (handle_response decode tr)

/-- `HttpClient::request` (lib.rs lines 127-139): `build_request(method, uri,
value)?`, then the `handle_response` future.  A build failure is returned as
`Err`; on success the future maps the transport's result to the outcome. -/
def request {P R : Type} (ser : P → Except String Bytes)
    (decode : Bytes → Except String R) (method : Method) (uri : Uri)
    (value : P) : Except HError (TransportResult → Except HError (Status R)) :=
  match build_request ser method uri value with
  | Except.error e => Except.error e
  | Except.ok _req => Except.ok (fun tr => handle_response decode tr)

/-- `HttpClient::request_raw` (lib.rs lines 141-153). -/
def request_raw {R : Type} (decode : Bytes → Except String R) (method : Method)
    (uri : Uri) (value : Bytes) :
    Except HError (TransportResult → Except HError (Status R)) :=
  match build_request_raw method uri value with
  | Except.error e => Except.error e
  | Except.ok _req => Except.ok (fun tr => handle_response decode tr)

/-- The public API surface of `impl HttpClient` (lib.rs lines 110-237): the
names of its `pub fn` items, in source order.  (`handle_response` is
private.) -/
def publicFns : List String :=
  ["new", "get", "request", "request_raw", "build_request", "build_request_raw"]

/-!
UTF-8 codec: the byte representation of a Rust `String`, modelled as a list
of Unicode scalar values (`List Char`).  `strToBytes` is `String::into_bytes`
(UTF-8 encoding); `fromUtf8` is `String::from_utf8` (strict UTF-8 validation:
continuation bytes, overlong forms, surrogates and the scalar-value maximum
are all rejected).  The decoder is driven by a fuel argument equal to the
input length so that it reduces on concrete inputs.
-/

def utf8EncodeChar (c : Nat) : Bytes :=
  if c < 128 then [c]
  else if c < 2048 then [192 + c / 64, 128 + c % 64]
  else if c < 65536 then [224 + c / 4096, 128 + c / 64 % 64, 128 + c % 64]
  else [240 + c / 262144, 128 + c / 4096 % 64, 128 + c / 64 % 64, 128 + c % 64]

def utf8DecodeChar : Bytes → Option (Nat × Bytes)
  | [] => none
  | b0 :: t =>
    if b0 < 128 then some (b0, t)
    else if b0 < 192 then none
    else if b0 < 224 then
      match t with
      | b1 :: t1 =>
        if b1 / 64 = 2 ∧ 128 ≤ (b0 - 192) * 64 + (b1 - 128) then
          some ((b0 - 192) * 64 + (b1 - 128), t1)
        else none
      | [] => none
    else if b0 < 240 then
      match t with
      | b1 :: b2 :: t2 =>
        if b1 / 64 = 2 ∧ b2 / 64 = 2 ∧
            2048 ≤ (b0 - 224) * 4096 + (b1 - 128) * 64 + (b2 - 128) ∧
            ((b0 - 224) * 4096 + (b1 - 128) * 64 + (b2 - 128) < 55296 ∨
              57343 < (b0 - 224) * 4096 + (b1 - 128) * 64 + (b2 - 128)) then
          some ((b0 - 224) * 4096 + (b1 - 128) * 64 + (b2 - 128), t2)
        else none
      | _ => none
    else if b0 < 248 then
      match t with
      | b1 :: b2 :: b3 :: t3 =>
        if b1 / 64 = 2 ∧ b2 / 64 = 2 ∧ b3 / 64 = 2 ∧
            65536 ≤ (b0 - 240) * 262144 + (b1 - 128) * 4096 + (b2 - 128) * 64 + (b3 - 128) ∧
            (b0 - 240) * 262144 + (b1 - 128) * 4096 + (b2 - 128) * 64 + (b3 - 128) < 1114112 then
          some ((b0 - 240) * 262144 + (b1 - 128) * 4096 + (b2 - 128) * 64 + (b3 - 128), t3)
        else none
      | _ => none
    else none

def utf8DecodeLoop : Nat → Bytes → Option (List Nat)
  | _, [] => some []
  | 0, _ :: _ => none
  | fuel + 1, b0 :: t =>
    match utf8DecodeChar (b0 :: t) with
    | some (c, rest) => (utf8DecodeLoop fuel rest).map (fun r => c :: r)
    | none => none

def utf8Decode (b : Bytes) : Option (List Nat) :=
  utf8DecodeLoop b.length b

example : utf8Decode [65, 195, 169, 228, 184, 173, 240, 159, 152, 128] = some [65, 233, 20013, 128512] := by decide
example : utf8Decode [192, 128] = none := by decide
example : utf8Decode [237, 160, 128] = none := by decide

theorem utf8DecodeChar_encodeChar (n : Nat)
    (hv : n < 55296 ∨ (57343 < n ∧ n < 1114112)) (rest : Bytes) :
    utf8DecodeChar (utf8EncodeChar n ++ rest) = some (n, rest) := by
  rcases Nat.lt_or_ge n 128 with h1 | h1
  · simp [utf8EncodeChar, utf8DecodeChar, h1]
  rcases Nat.lt_or_ge n 2048 with h2 | h2
  · have e0 : ¬ (192 + n / 64 < 128) := by omega
    have e1 : ¬ (192 + n / 64 < 192) := by omega
    have e2 : 192 + n / 64 < 224 := by omega
    have e3 : (128 + n % 64) / 64 = 2 := by omega
    have e4 : 128 ≤ (192 + n / 64 - 192) * 64 + (128 + n % 64 - 128) := by omega
    have e5 : (192 + n / 64 - 192) * 64 + (128 + n % 64 - 128) = n := by omega
    simp only [utf8EncodeChar, if_neg (by omega : ¬ n < 128), if_pos h2,
      List.cons_append, utf8DecodeChar, if_neg e0, if_neg e1, if_pos e2]
    rw [e5]
    rw [if_pos ⟨e3, h1⟩]
    simp
  rcases Nat.lt_or_ge n 65536 with h3 | h3
  · have e0 : ¬ (224 + n / 4096 < 128) := by omega
    have e1 : ¬ (224 + n / 4096 < 192) := by omega
    have e2 : ¬ (224 + n / 4096 < 224) := by omega
    have e2b : 224 + n / 4096 < 240 := by omega
    have e3 : (128 + n / 64 % 64) / 64 = 2 := by omega
    have e4 : (128 + n % 64) / 64 = 2 := by omega
    have e5 : (224 + n / 4096 - 224) * 4096 + (128 + n / 64 % 64 - 128) * 64 + (128 + n % 64 - 128) = n := by omega
    have e6 : 2048 ≤ n := h2
    have e7 : n < 55296 ∨ 57343 < n := by omega
    simp only [utf8EncodeChar, if_neg (by omega : ¬ n < 128), if_neg (by omega : ¬ n < 2048),
      if_pos h3, utf8DecodeChar, List.cons_append, if_neg e0, if_neg e1, if_neg e2, if_pos e2b]
    rw [e5]
    simp [e3, e4, e6, e7]
  · have e0 : ¬ (240 + n / 262144 < 128) := by omega
    have e1 : ¬ (240 + n / 262144 < 192) := by omega
    have e2 : ¬ (240 + n / 262144 < 224) := by omega
    have e2b : ¬ (240 + n / 262144 < 240) := by omega
    have e2c : 240 + n / 262144 < 248 := by omega
    have e3 : (128 + n / 4096 % 64) / 64 = 2 := by omega
    have e4 : (128 + n / 64 % 64) / 64 = 2 := by omega
    have e4b : (128 + n % 64) / 64 = 2 := by omega
    have e5 : (240 + n / 262144 - 240) * 262144 + (128 + n / 4096 % 64 - 128) * 4096 +
        (128 + n / 64 % 64 - 128) * 64 + (128 + n % 64 - 128) = n := by omega
    have e6 : 65536 ≤ n := h3
    have e7 : n < 1114112 := by omega
    simp only [utf8EncodeChar, if_neg (by omega : ¬ n < 128), if_neg (by omega : ¬ n < 2048),
      if_neg (by omega : ¬ n < 65536), utf8DecodeChar, List.cons_append,
      if_neg e0, if_neg e1, if_neg e2, if_neg e2b, if_pos e2c]
    rw [e5]
    simp [e3, e4, e4b, e6, e7]

theorem utf8DecodeChar_length (b : Bytes) (c : Nat) (rest : Bytes)
    (h : utf8DecodeChar b = some (c, rest)) : rest.length < b.length := by
  match b with
  | [] => simp [utf8DecodeChar] at h
  | b0 :: t =>
    unfold utf8DecodeChar at h
    repeat' split at h
    all_goals simp_all
    all_goals omega

theorem utf8DecodeLoop_congr (fuel1 : Nat) : ∀ (fuel2 : Nat) (b : Bytes),
    b.length ≤ fuel1 → b.length ≤ fuel2 →
    utf8DecodeLoop fuel1 b = utf8DecodeLoop fuel2 b := by
  induction fuel1 with
  | zero =>
    intro fuel2 b h1 _
    match b with
    | [] => cases fuel2 <;> rfl
    | b0 :: t => simp at h1
  | succ f1 ih =>
    intro fuel2 b h1 h2
    match b with
    | [] => cases fuel2 <;> rfl
    | b0 :: t =>
      match fuel2 with
      | 0 => simp at h2
      | f2 + 1 =>
        show (match utf8DecodeChar (b0 :: t) with
          | some (c, rest) => (utf8DecodeLoop f1 rest).map (fun r => c :: r)
          | none => none) =
          (match utf8DecodeChar (b0 :: t) with
          | some (c, rest) => (utf8DecodeLoop f2 rest).map (fun r => c :: r)
          | none => none)
        match hd : utf8DecodeChar (b0 :: t) with
        | none => rfl
        | some (c, rest) =>
          have hlen := utf8DecodeChar_length _ _ _ hd
          simp only []
          rw [ih f2 rest (by simp only [List.length_cons] at hlen h1; omega)
            (by simp only [List.length_cons] at hlen h2; omega)]

theorem utf8DecodeLoop_succ (f : Nat) (b : Bytes) (hb : b ≠ []) :
    utf8DecodeLoop (f + 1) b =
      match utf8DecodeChar b with
      | some (c, rest) => (utf8DecodeLoop f rest).map (fun r => c :: r)
      | none => none := by
  match b with
  | [] => exact absurd rfl hb
  | b0 :: t => rfl

theorem utf8EncodeChar_length_pos (n : Nat) : 1 ≤ (utf8EncodeChar n).length := by
  unfold utf8EncodeChar
  repeat' split
  all_goals simp

theorem utf8DecodeLoop_encode (fuel n : Nat)
    (hv : n < 55296 ∨ (57343 < n ∧ n < 1114112)) (rest : Bytes)
    (hf : (utf8EncodeChar n).length + rest.length ≤ fuel) :
    utf8DecodeLoop fuel (utf8EncodeChar n ++ rest) =
      (utf8DecodeLoop rest.length rest).map (fun r => n :: r) := by
  have henc1 : 1 ≤ (utf8EncodeChar n).length := utf8EncodeChar_length_pos n
  match fuel with
  | 0 => omega
  | f + 1 =>
    have hne : utf8EncodeChar n ++ rest ≠ [] := by
      intro hcon
      rw [List.append_eq_nil] at hcon
      rw [hcon.1] at henc1
      simp at henc1
    rw [utf8DecodeLoop_succ f _ hne, utf8DecodeChar_encodeChar n hv rest]
    simp only []
    rw [utf8DecodeLoop_congr f rest.length rest (by omega) (le_refl _)]

theorem utf8Decode_cons (n : Nat)
    (hv : n < 55296 ∨ (57343 < n ∧ n < 1114112)) (rest : Bytes) :
    utf8Decode (utf8EncodeChar n ++ rest) = (utf8Decode rest).map (fun r => n :: r) := by
  unfold utf8Decode
  rw [List.length_append]
  exact utf8DecodeLoop_encode _ n hv rest (le_refl _)

def strToBytes (s : List Char) : Bytes :=
  (s.map (fun c => utf8EncodeChar c.toNat)).flatten

def fromUtf8 (b : Bytes) : Option (List Char) :=
  (utf8Decode b).map (fun l => l.map Char.ofNat)

theorem char_toNat_valid (c : Char) :
    c.toNat < 55296 ∨ (57343 < c.toNat ∧ c.toNat < 1114112) := c.valid

theorem utf8Decode_strToBytes (s : List Char) :
    utf8Decode (strToBytes s) = some (s.map Char.toNat) := by
  induction s with
  | nil => rfl
  | cons c cs ih =>
    show utf8Decode (utf8EncodeChar c.toNat ++ strToBytes cs) = _
    rw [utf8Decode_cons c.toNat (char_toNat_valid c) (strToBytes cs), ih]
    rfl

theorem fromUtf8_strToBytes (s : List Char) : fromUtf8 (strToBytes s) = some s := by
  unfold fromUtf8
  rw [utf8Decode_strToBytes]
  have h1 : (s.map Char.toNat).map Char.ofNat = s := by
    rw [List.map_map]
    have h2 : (Char.ofNat ∘ Char.toNat) = id := by
      funext c
      exact Char.ofNat_toNat c
    rw [h2, List.map_id]
  simp [h1]

/-!
Embedding of src/src/body.rs: the `RequestBody`/`ResponseBody` trait
implementations for `()`, `Json<V>` and `TextPlain`.  The serde_json codec
for a payload type `V` (an external collaborator) is a pair of functions;
its contract (spec section 6) is the round-trip hypothesis taken by the
theorems that need it.
-/

/-- The serde_json codec capability for a concrete payload type `V`:
`serde_json::to_vec` and `serde_json::from_slice`, each returning the
error's description on failure. -/
structure SerdeCodec (V : Type) where
  toVec : V → Except String Bytes
  fromSlice : Bytes → Except String V

/-- `impl RequestBody for ()` (body.rs line 22): `const MIME: Mime = mime::TEXT_PLAIN`. -/
def unitMIME : String := "text/plain"

/-- `impl RequestBody for ()` (body.rs lines 24-26): `to_bytes` yields an
empty buffer and never fails. -/
def unit_to_bytes : Unit → Except HError Bytes :=
  fun _ => Except.ok []

/-- `impl ResponseBody for ()` (body.rs lines 30-32): `accept_types`. -/
def unit_accept_types : String := "*/*"

/-- `impl ResponseBody for ()` (body.rs lines 34-36): `from_bytes` ignores
the status and the buffer and always succeeds. -/
def unit_from_bytes : Nat → Bytes → Except HError Unit :=
  fun _ _ => Except.ok ()

/-- `pub struct Json<V>(pub V)` (body.rs line 39). -/
structure Json (V : Type) where
  val : V
  deriving DecidableEq, Repr

/-- `decode_json` (body.rs lines 51-59): `serde_json::from_slice`, wrapping a
failure as `InvalidDataFormat("invalid data format: ...")`. -/
def decode_json {V : Type} (c : SerdeCodec V) (slice : Bytes) : Except HError V :=
  match c.fromSlice slice with
  | Except.ok v => Except.ok v
  | Except.error e => Except.error (HError.InvalidDataFormat ("invalid data format: " ++ e))

/-- `impl RequestBody for Json<V>` (body.rs line 65): `const MIME: Mime =
mime::APPLICATION_JSON`. -/
def Json.MIME : String := "application/json"

/-- `impl RequestBody for Json<V>` (body.rs lines 67-72): `to_bytes` is
`serde_json::to_vec(&self.0)`, wrapping a failure as `InvalidDataFormat`. -/
def Json.to_bytes {V : Type} (c : SerdeCodec V) (j : Json V) : Except HError Bytes :=
  match c.toVec j.val with
  | Except.ok v => Except.ok v
  | Except.error e => Except.error (HError.InvalidDataFormat e)

/-- `impl ResponseBody for Json<V>` (body.rs lines 76-78): `accept_types`. -/
def Json.accept_types : String := "application/json"

/-- `impl ResponseBody for Json<V>` (body.rs lines 80-82): `from_bytes`
ignores the status and wraps `decode_json` of the buffer. -/
def Json.from_bytes {V : Type} (c : SerdeCodec V) (_status : Nat) (body : Bytes) :
    Except HError (Json V) :=
  match decode_json c body with
  | Except.ok v => Except.ok (Json.mk v)
  | Except.error e => Except.error e

/-- `pub struct TextPlain(String)` (body.rs line 93); the Rust `String` is a
list of Unicode scalar values. -/
structure TextPlain where
  s : List Char
  deriving DecidableEq, Repr

/-- `impl RequestBody for TextPlain` (body.rs line 102): `const MIME: Mime =
mime::TEXT_PLAIN`. -/
def TextPlain.MIME : String := "text/plain"

/-- `impl RequestBody for TextPlain` (body.rs lines 104-106): `to_bytes` is
`self.0.into_bytes()` — the string's UTF-8 bytes, never failing. -/
def TextPlain.to_bytes (t : TextPlain) : Except HError Bytes :=
  Except.ok (strToBytes t.s)

/-- `impl ResponseBody for TextPlain` (body.rs lines 110-112): `accept_types`. -/
def TextPlain.accept_types : String := "text/plain"

/-- `impl ResponseBody for TextPlain` (body.rs lines 114-119): `from_bytes`
ignores the status and runs `String::from_utf8`, wrapping a failure as
`InvalidDataFormat`. -/
def TextPlain.from_bytes (_status : Nat) (body : Bytes) : Except HError TextPlain :=
  match fromUtf8 body with
  | some s => Except.ok (TextPlain.mk s)
  | none => Except.error (HError.InvalidDataFormat "invalid utf-8 sequence")

/-!
Claim theorems.
-/

/-- Discriminator: is this pipeline result an `InvalidDataFormat` error? -/
def isInvalidDataFormatResult {A : Type} : Except HError A → Bool
  | Except.error (HError.InvalidDataFormat _) => true
  | _ => false

/-- C1: for every response received by the pipeline, the outcome follows the
fixed status table: 200 decodes the buffered body and yields `Ok(value)`;
201 yields `Created`, 202 `Accepted`, 404 `NotFound`, 500
`InternalServerError`, 501 `NotImplemented`, any other code `c` yields
`Unregistered(c)`; and for every status other than 200 the outcome is
independent of the body bytes and of the decoder (the decoder is never
invoked). -/
theorem status_outcome_table (R : Type) (decode : Bytes → Except String R)
    (body : BodyStream) :
    (∀ buf v, bufferBody body = Except.ok buf → decode buf = Except.ok v →
      handle_response decode (Except.ok ⟨200, body⟩) = Except.ok (Status.Ok v))
    ∧ handle_response decode (Except.ok ⟨201, body⟩) = Except.ok Status.Created
    ∧ handle_response decode (Except.ok ⟨202, body⟩) = Except.ok Status.Accepted
    ∧ handle_response decode (Except.ok ⟨404, body⟩) = Except.ok Status.NotFound
    ∧ handle_response decode (Except.ok ⟨500, body⟩) = Except.ok Status.InternalServerError
    ∧ handle_response decode (Except.ok ⟨501, body⟩) = Except.ok Status.NotImplemented
    ∧ (∀ c, c ≠ 200 → c ≠ 201 → c ≠ 202 → c ≠ 404 → c ≠ 500 → c ≠ 501 →
      handle_response decode (Except.ok ⟨c, body⟩) = Except.ok (Status.Unregistered c))
    ∧ (∀ c, c ≠ 200 → ∀ (decode2 : Bytes → Except String R) (body2 : BodyStream),
      handle_response decode (Except.ok ⟨c, body⟩) =
        handle_response decode2 (Except.ok ⟨c, body2⟩)) := by
  refine ⟨?_, ?_, ?_, ?_, ?_, ?_, ?_, ?_⟩
  · intro buf v h1 h2
    simp [handle_response, h1, h2]
  · simp [handle_response, statusFromCode]
  · simp [handle_response, statusFromCode]
  · simp [handle_response, statusFromCode]
  · simp [handle_response, statusFromCode]
  · simp [handle_response, statusFromCode]
  · intro c h0 h1 h2 h3 h4 h5
    simp [handle_response, statusFromCode, h0, h1, h2, h3, h4, h5]
  · intro c h0 decode2 body2
    simp [handle_response, h0]

/-- Witness for C1 at concrete inputs: a 200 response whose single chunk
decodes, and a 418 response. -/
theorem status_outcome_table_witness :
    handle_response (fun b => if b = [49] then Except.ok 1 else Except.error "bad")
      (Except.ok ⟨200, ⟨[[49]], none⟩⟩) = Except.ok (Status.Ok 1)
    ∧ handle_response (fun b => if b = [49] then Except.ok 1 else Except.error "bad")
      (Except.ok ⟨418, ⟨[[49]], none⟩⟩) = Except.ok (Status.Unregistered 418) := by
  have h := status_outcome_table Nat
    (fun b => if b = [49] then Except.ok 1 else Except.error "bad") ⟨[[49]], none⟩
  exact ⟨h.1 [49] 1 (by rfl) (by rfl),
    h.2.2.2.2.2.2.1 418 (by decide) (by decide) (by decide) (by decide) (by decide) (by decide)⟩

/-- C10: the direct `From<StatusCode>` conversion never yields the `Ok`
variant for any status code; 200 converts to `Unregistered(200)`; and the
pipeline yields `Ok` only from its dedicated 200 decode path. -/
theorem from_status_never_ok (T : Type) :
    (∀ (s : Nat) (t : T), statusFromCode T s ≠ Status.Ok t)
    ∧ statusFromCode T 200 = Status.Unregistered 200
    ∧ (∀ (R : Type) (decode : Bytes → Except String R) (resp : HttpResponse) (t : R),
      handle_response decode (Except.ok resp) = Except.ok (Status.Ok t) →
        resp.status = 200) := by
  have hnever : ∀ (U : Type) (s : Nat) (t : U), statusFromCode U s ≠ Status.Ok t := by
    intro U s t
    unfold statusFromCode
    repeat' split
    all_goals simp
  refine ⟨hnever T, by simp [statusFromCode], ?_⟩
  intro R decode resp t h
  by_cases hs : resp.status = 200
  · exact hs
  · exfalso
    simp only [handle_response, if_neg hs] at h
    rw [Except.ok.injEq] at h
    exact hnever R resp.status t h

/-- Witness for C10: the non-`Ok` fact at code 200, and the 200-only origin
of `Ok` at a concrete successful exchange. -/
theorem from_status_never_ok_witness :
    statusFromCode Nat 200 ≠ Status.Ok 5
    ∧ statusFromCode Nat 200 = Status.Unregistered 200
    ∧ (200 : Nat) = 200 := by
  have h := from_status_never_ok Nat
  exact ⟨h.1 200 5, h.2.1,
    h.2.2 Nat (fun _ => Except.ok 5) ⟨200, ⟨[], none⟩⟩ 5 (by rfl)⟩

/-- C4: for a status-200 response whose stream ends cleanly, the buffer
handed to the decoder is exactly the concatenation of the chunks in arrival
order, and the pipeline's outcome equals decoding that concatenation
directly. -/
theorem buffered_bytes_concat (R : Type) (decode : Bytes → Except String R)
    (chunks : List Bytes) :
    bufferBody ⟨chunks, none⟩ = Except.ok chunks.flatten
    ∧ handle_response decode (Except.ok ⟨200, ⟨chunks, none⟩⟩) =
        (match decode chunks.flatten with
         | Except.ok v => Except.ok (Status.Ok v)
         | Except.error e => Except.error (HError.InvalidHttpResponse e)) := by
  have hbuf : bufferBody ⟨chunks, none⟩ = Except.ok chunks.flatten := by
    simp [bufferBody, foldl_append_eq_flatten]
  refine ⟨hbuf, ?_⟩
  simp [handle_response, hbuf]

/-- C2 counterexample: a 200 response whose body fails to decode yields
`InvalidHttpResponse` (the decode error routed through lib.rs line 222),
not `InvalidDataFormat` as the claim states. -/
theorem decode_failure_not_invalid_data_format :
    handle_response (R := Unit) (fun _ => Except.error "EOF while parsing a value")
      (Except.ok ⟨200, ⟨[[123]], none⟩⟩)
      = Except.error (HError.InvalidHttpResponse "EOF while parsing a value")
    ∧ isInvalidDataFormatResult
        (handle_response (R := Unit) (fun _ => Except.error "EOF while parsing a value")
          (Except.ok ⟨200, ⟨[[123]], none⟩⟩)) = false := by
  constructor
  · rfl
  · rfl

/-- C2 amended: for every 200 response whose buffered body fails to decode,
the pipeline yields the error `InvalidHttpResponse` carrying the decode
diagnostic — an error, never a partially-populated decoded value. -/
theorem decode_failure_yields_invalid_http_response (R : Type)
    (decode : Bytes → Except String R) (body : BodyStream) (buf : Bytes) (e : String) :
    bufferBody body = Except.ok buf → decode buf = Except.error e →
    handle_response decode (Except.ok ⟨200, body⟩) =
      Except.error (HError.InvalidHttpResponse e) := by
  intro h1 h2
  simp [handle_response, h1, h2]

/-- Witness for the amended C2 at a concrete malformed body. -/
theorem decode_failure_yields_invalid_http_response_witness :
    handle_response (R := Unit) (fun _ => Except.error "EOF while parsing an object")
      (Except.ok ⟨200, ⟨[[123]], none⟩⟩)
      = Except.error (HError.InvalidHttpResponse "EOF while parsing an object") :=
  decode_failure_yields_invalid_http_response Unit
    (fun _ => Except.error "EOF while parsing an object") ⟨[[123]], none⟩ [123]
    "EOF while parsing an object" (by rfl) (by rfl)

/-- A concrete serde_json codec instance for `Bool` payloads, used to
witness the round-trip law: JSON booleans serialize as the literals `true`
and `false`. -/
def boolJsonCodec : SerdeCodec Bool where
  toVec v := Except.ok (if v then [116, 114, 117, 101] else [102, 97, 108, 115, 101])
  fromSlice bs :=
    if bs = [116, 114, 117, 101] then Except.ok true
    else if bs = [102, 97, 108, 115, 101] then Except.ok false
    else Except.error "expected boolean"

/-- The `boolJsonCodec` satisfies the codec collaborator's round-trip
contract. -/
theorem boolJsonCodec_round_trip (v : Bool) (bs : Bytes)
    (h : boolJsonCodec.toVec v = Except.ok bs) :
    boolJsonCodec.fromSlice bs = Except.ok v := by
  cases v
  all_goals
    simp only [boolJsonCodec] at h
    simp at h
    subst h
    rfl

/-- C3: the decode-of-encode round-trip law at the success status, for each
supported encoding of body.rs: a JSON-wrapped value (given the serde codec's
round-trip contract), a plain-text string, and the unit/empty body. -/
theorem encode_decode_round_trip (V : Type) (c : SerdeCodec V)
    (hc : ∀ v bs, c.toVec v = Except.ok bs → c.fromSlice bs = Except.ok v)
    (v : V) (bs : Bytes) (s1 s2 s3 : Nat) (t : TextPlain) :
    (Json.to_bytes c ⟨v⟩ = Except.ok bs → Json.from_bytes c s1 bs = Except.ok ⟨v⟩)
    ∧ (TextPlain.to_bytes t = Except.ok (strToBytes t.s)
       ∧ TextPlain.from_bytes s2 (strToBytes t.s) = Except.ok t)
    ∧ (unit_to_bytes () = Except.ok []
       ∧ unit_from_bytes s3 [] = Except.ok ()) := by
  refine ⟨?_, ⟨rfl, ?_⟩, ⟨rfl, rfl⟩⟩
  · intro h
    have hser : c.toVec v = Except.ok bs := by
      simp only [Json.to_bytes] at h
      match hv : c.toVec v with
      | Except.ok b2 => rw [hv] at h; simp at h; rw [h]
      | Except.error e => rw [hv] at h; simp at h
    have hdec := hc v bs hser
    simp [Json.from_bytes, decode_json, hdec]
  · simp [TextPlain.from_bytes, fromUtf8_strToBytes t.s]

/-- Witness for C3: the boolean JSON codec round-trips `true`, and the
two-character text body round-trips. -/
theorem encode_decode_round_trip_witness :
    Json.from_bytes boolJsonCodec 200 [116, 114, 117, 101] = Except.ok ⟨true⟩
    ∧ TextPlain.from_bytes 200 (strToBytes ['h', 'i']) = Except.ok ⟨['h', 'i']⟩ := by
  have h := encode_decode_round_trip Bool boolJsonCodec boolJsonCodec_round_trip
    true [116, 114, 117, 101] 200 200 200 ⟨['h', 'i']⟩
  exact ⟨h.1 (by rfl), h.2.1.2⟩

/-- C8: encoding the unit (body-less) value never fails and yields an empty
buffer; decoding to the unit type succeeds for every status code and every
byte buffer, discarding the buffer. -/
theorem unit_body_trivial :
    (∀ u : Unit, unit_to_bytes u = Except.ok [])
    ∧ ∀ (s : Nat) (b : Bytes), unit_from_bytes s b = Except.ok () :=
  ⟨fun _ => rfl, fun _ _ => rfl⟩

/-- C5 counterexample: `build_request` — the synchronous request-assembly
step, before any network I/O — yields `InvalidHttpResponse` when the payload
fails to serialize (a serde error such as a map with non-string keys),
because `impl From<serde_json::Error> for HError` maps serde errors to
`InvalidHttpResponse`. -/
theorem build_request_invalid_http_response_before_io :
    build_request (fun _ : Unit => Except.error "key must be a string")
      Method.POST "http://127.0.0.1:58921/tasks" ()
      = Except.error (HError.InvalidHttpResponse "key must be a string") := by
  rfl

/-- Every error produced by the buffering step is an `InvalidHttpResponse`. -/
theorem bufferBody_error_form (s : BodyStream) (e : HError)
    (h : bufferBody s = Except.error e) :
    ∃ msg, e = HError.InvalidHttpResponse msg := by
  unfold bufferBody at h
  split at h
  · rw [Except.error.injEq] at h
    exact ⟨_, h.symm⟩
  · simp at h

/-- Every error produced by the response pipeline is an
`InvalidHttpResponse`: the transport-error path, the stream-failure path and
the decode-failure path all use that constructor. -/
theorem handle_response_error_form {R : Type} (decode : Bytes → Except String R)
    (tr : TransportResult) (e : HError)
    (h : handle_response decode tr = Except.error e) :
    ∃ msg, e = HError.InvalidHttpResponse msg := by
  unfold handle_response at h
  split at h
  · rw [Except.error.injEq] at h
    exact ⟨_, h.symm⟩
  · split at h
    · split at h
      · rename_i hb
        rw [Except.error.injEq] at h
        subst h
        exact bufferBody_error_form _ _ hb
      · split at h
        · simp at h
        · rw [Except.error.injEq] at h
          exact ⟨_, h.symm⟩
    · simp at h

/-- C5 amended: every error of `build_request` is an `InvalidHttpResponse`
carrying the serialization diagnostic (so `InvalidHttpResponse` also arises
synchronously, before I/O), while the post-I/O pipeline never produces
`InvalidHttpRequest`. -/
theorem herror_phase_classification (P R : Type) (ser : P → Except String Bytes)
    (decode : Bytes → Except String R) (m : Method) (u : Uri) (v : P) :
    (∀ e, build_request ser m u v = Except.error e →
      ∃ msg, e = HError.InvalidHttpResponse msg ∧ ser v = Except.error msg)
    ∧ ∀ (tr : TransportResult) (msg : String),
      handle_response decode tr ≠ Except.error (HError.InvalidHttpRequest msg) := by
  constructor
  · intro e he
    match hv : ser v with
    | Except.ok b =>
      rw [build_request, hv] at he
      simp [requestBuilderBuild] at he
    | Except.error msg =>
      rw [build_request, hv] at he
      simp at he
      exact ⟨msg, he.symm, rfl⟩
  · intro tr msg h
    rcases handle_response_error_form decode tr (HError.InvalidHttpRequest msg) h
      with ⟨m2, hm⟩
    simp at hm

/-- Witness for the amended C5 at concrete inputs: a failing serializer and
a concrete 404 exchange. -/
theorem herror_phase_classification_witness :
    (∃ msg, HError.InvalidHttpResponse "key must be a string"
        = HError.InvalidHttpResponse msg
      ∧ (fun _ : Unit => (Except.error "key must be a string" : Except String Bytes)) ()
          = Except.error msg)
    ∧ handle_response (R := Nat) (fun _ => Except.ok 0)
        (Except.ok ⟨404, ⟨[], none⟩⟩) ≠ Except.error (HError.InvalidHttpRequest "x") := by
  have h := herror_phase_classification Unit Nat
    (fun _ => Except.error "key must be a string") (fun _ => Except.ok 0)
    Method.POST "http://127.0.0.1:58921/tasks" ()
  exact ⟨h.1 (HError.InvalidHttpResponse "key must be a string") (by rfl),
    h.2 (Except.ok ⟨404, ⟨[], none⟩⟩) "x"⟩

/-- C6 counterexample: the request built for the unit value carries
`Content-Type: application/json` and body `null`, not the `text/plain` tag
declared by `impl RequestBody for ()` nor its empty encoded body. -/
theorem content_type_ignores_declared_tag :
    build_request serdeToVecUnit Method.GET "http://127.0.0.1:58921/tasks" ()
      = Except.ok { method := Method.GET,
                    uri := "http://127.0.0.1:58921/tasks",
                    contentType := "application/json",
                    body := [110, 117, 108, 108] }
    ∧ unitMIME = "text/plain"
    ∧ "application/json" ≠ unitMIME
    ∧ unit_to_bytes () = Except.ok []
    ∧ ([110, 117, 108, 108] : Bytes) ≠ [] := by
  refine ⟨by rfl, by rfl, by decide, by rfl, by decide⟩

/-- C6 amended: for every payload whose serialization succeeds, the built
request carries the hardcoded `Content-Type: application/json` and the
serde_json serialization as its body, regardless of the payload type's
declared MIME tag. -/
theorem build_request_always_json (P : Type) (ser : P → Except String Bytes)
    (m : Method) (u : Uri) (v : P) (bs : Bytes) :
    ser v = Except.ok bs →
    build_request ser m u v =
      Except.ok { method := m, uri := u, contentType := "application/json", body := bs } := by
  intro h
  rw [build_request, h]
  rfl

/-- Witness for the amended C6 at the concrete unit payload. -/
theorem build_request_always_json_witness :
    build_request serdeToVecUnit Method.PUT "http://127.0.0.1:58921/tasks" ()
      = Except.ok { method := Method.PUT,
                    uri := "http://127.0.0.1:58921/tasks",
                    contentType := "application/json",
                    body := [110, 117, 108, 108] } :=
  build_request_always_json Unit serdeToVecUnit Method.PUT
    "http://127.0.0.1:58921/tasks" () [110, 117, 108, 108] (by rfl)

/-- C7: no public operation surfaces a failure as an unwound fault for any
input: `get` always returns the pipeline's typed result (its `.expect` is
unreachable because serializing `()` and building from pre-validated parts
cannot fail), and `request` returns every failure as a typed `Except`
value. -/
theorem get_never_aborts (R : Type) (decode : Bytes → Except String R)
    (uri : Uri) (tr : TransportResult) :
    get decode uri tr = some (handle_response decode tr)
    ∧ (get decode uri tr).isSome = true := by
  constructor
  · rfl
  · rfl

/-- C9 counterexample: the façade exposes no `post`, `put` or `delete`
convenience entry point. -/
theorem no_post_put_delete_wrappers :
    "post" ∉ publicFns ∧ "put" ∉ publicFns ∧ "delete" ∉ publicFns := by
  refine ⟨by decide, by decide, by decide⟩

/-- C9 amended: the façade exposes `new`, `get` and the generic `request`
(plus `request_raw` and the builders); `get`, `request` and `request_raw`
each build the request via the Request Builder and then run the Response
Pipeline; `post`/`put`/`delete` are obtained by passing the method to
`request`. -/
theorem facade_entry_points (P R : Type) (ser : P → Except String Bytes)
    (decode : Bytes → Except String R) (m : Method) (u : Uri) (v : P)
    (bv : Bytes) (tr : TransportResult) :
    "new" ∈ publicFns ∧ "get" ∈ publicFns ∧ "request" ∈ publicFns
    ∧ "request_raw" ∈ publicFns
    ∧ request ser decode m u v =
        (match build_request ser m u v with
         | Except.ok _ => Except.ok (fun tr2 => handle_response decode tr2)
         | Except.error e => Except.error e)
    ∧ get decode u tr =
        (match build_request serdeToVecUnit Method.GET u () with
         | Except.ok _ => some (handle_response decode tr)
         | Except.error _ => none)
    ∧ request_raw decode m u bv =
        (match build_request_raw m u bv with
         | Except.ok _ => Except.ok (fun tr2 => handle_response decode tr2)
         | Except.error e => Except.error e) := by
  refine ⟨by decide, by decide, by decide, by decide, ?_, ?_, ?_⟩
  · unfold request
    match build_request ser m u v with
    | Except.ok r => rfl
    | Except.error e => rfl
  · unfold get
    match build_request serdeToVecUnit Method.GET u () with
    | Except.ok r => rfl
    | Except.error e => rfl
  · unfold request_raw
    match build_request_raw m u bv with
    | Except.ok r => rfl
    | Except.error e => rfl

end HttpClient
